import Mathlib

/-!
Shallow embedding of the penweb adaptive probing engine
(`src/services/attempt_login.py` and `src/utils/ddos.py`) together with
theorems checking the natural-language specification against it.

The network and the HTML parser (BeautifulSoup) are external collaborators:
an HTTP exchange is modelled as an element of a list supplied by the
environment, and an HTML document is modelled at the level BeautifulSoup
hands back to the scanning code (a list of input-like elements plus the
first form tag).  Randomness (`random.randint`) is passed in explicitly as
a function from the keyword index to the drawn number.
-/

namespace Penweb

/-! ## Python-style string primitives -/

/-- Containment scan over character lists, mirroring Python's `in` on `str`. -/
def chars_contains (pat : List Char) : List Char → Bool
  | [] => pat.isEmpty
  | c :: cs => pat.isPrefixOf (c :: cs) || chars_contains pat cs

/-- Python `pat in s` for strings. -/
def str_contains (s pat : String) : Bool :=
  chars_contains pat.data s.data

/-- Python `s.startswith(pat)`. -/
def str_starts_with (s pat : String) : Bool :=
  pat.data.isPrefixOf s.data

/-- Python `s.endswith(pat)`. -/
def str_ends_with (s pat : String) : Bool :=
  pat.data.isSuffixOf s.data

/-- Python `s.lower()` (ASCII range, which is all the engine's literals use). -/
def str_lower (s : String) : String :=
  String.mk (s.data.map Char.toLower)

/-- Python `s.upper()` (ASCII range). -/
def str_upper (s : String) : String :=
  String.mk (s.data.map Char.toUpper)

/-- Python `s.capitalize()`: first character upper-cased, the rest lower-cased. -/
def py_capitalize (s : String) : String :=
  match s.data with
  | [] => ""
  | c :: cs => String.mk (Char.toUpper c :: cs.map Char.toLower)

/-- Python truthiness of an optional string: `None` and `""` are falsy. -/
def pyTruthy : Option String → Bool
  | none => false
  | some s => !(s == "")

/-- Python `a or b` on optional strings: `a` when truthy, else `b`. -/
def pyOr (a b : Option String) : Option String :=
  if pyTruthy a then a else b

/-! ## Candidate generator (`generate_password_combinations`) -/

/-- The fixed transformation list built for one keyword
(`attempt_login.py` lines 26-37); `r` is the number drawn by
`random.randint(1, 99)` for this keyword. -/
def variations (keyword : String) (r : Nat) : List String :=
  [ keyword
  , str_lower keyword
  , py_capitalize keyword
  , str_upper keyword
  , keyword ++ "123"
  , keyword ++ "2024"
  , keyword ++ "!"
  , keyword ++ "@123"
  , "123" ++ keyword
  , keyword ++ "#" ++ toString r ]

/-- The `passwords` accumulator before deduplication: per keyword, the
variation list truncated to `max_per_keyword`, appended in keyword order.
`rnd i` is the random draw for the keyword at index `i`. -/
def all_variations (max_per_keyword : Nat) (rnd : Nat → Nat) : Nat → List String → List String
  | _, [] => []
  | i, k :: ks => (variations k (rnd i)).take max_per_keyword ++ all_variations max_per_keyword rnd (i + 1) ks

/-- The `seen`-set filter of `attempt_login.py` line 41-42: keep the first
occurrence of each string, in order. -/
def dedup_aux (seen : List String) : List String → List String
  | [] => []
  | p :: ps => if p ∈ seen then dedup_aux seen ps else p :: dedup_aux (p :: seen) ps

/-- Remove duplicates while preserving first-seen order. -/
def dedup_first (l : List String) : List String :=
  dedup_aux [] l

/-- Embedding of `generate_password_combinations` (`attempt_login.py` 12-42).
There is no input validation in the source: empty keyword lists and a zero
`max_per_keyword` flow through and produce the empty list. -/
def generate_password_combinations (keywords : List String) (max_per_keyword : Nat) (rnd : Nat → Nat) : List String :=
  dedup_first (all_variations max_per_keyword rnd 0 keywords)

/-- Index of the first occurrence of `x` (length of the list when absent). -/
def first_idx (x : String) : List String → Nat
  | [] => 0
  | y :: ys => if y = x then 0 else first_idx x ys + 1

/-! ## Form inspector (`detect_form_fields`)

The BeautifulSoup parse is the boundary: a document is the first `<form>`
tag (if any) plus the list of input-like elements
(`soup.find_all(['input', 'textarea'])`) in document order, each carrying
its optional `name`, `type` and `id` attributes. -/

/-- One input-like element as seen by the scan. -/
structure InputField where
  name : Option String
  ty : Option String
  id : Option String

/-- The first `<form>` tag: `action` and `method` attributes, absent when
the tag does not carry them. -/
structure FormTag where
  action : Option String
  method : Option String

/-- A parsed HTML document, as handed to the field scan. -/
structure HtmlDoc where
  form : Option FormTag
  inputs : List InputField

/-- The dictionary returned by `detect_form_fields`. -/
structure FormFields where
  email_field : Option String
  password_field : Option String
  form_action : Option String
  form_method : String

/-- Tokens looked for in `name`/`id` attributes (`attempt_login.py` line 76). -/
def email_patterns : List String :=
  ["email", "username", "user", "login", "account"]

/-- Does one element qualify as the identity field
(`attempt_login.py` lines 84-85)? -/
def matches_email_field (f : InputField) : Bool :=
  let input_name := str_lower (f.name.getD "")
  let input_type := str_lower (f.ty.getD "")
  let input_id := str_lower (f.id.getD "")
  input_type == "email"
    || email_patterns.any (fun pat => str_contains input_name pat)
    || email_patterns.any (fun pat => str_contains input_id pat)

/-- Does one element qualify as the secret field
(`attempt_login.py` line 90)? -/
def matches_password_field (f : InputField) : Bool :=
  str_lower (f.ty.getD "") == "password"

/-- One step of the document-order scan: each field is only written while it
is still falsy, recording `name or id` of the first matching element. -/
def scan_step (st : Option String × Option String) (f : InputField) : Option String × Option String :=
  let ef := if pyTruthy st.1 then st.1 else
    if matches_email_field f then pyOr f.name f.id else st.1
  let pf := if pyTruthy st.2 then st.2 else
    if matches_password_field f then pyOr f.name f.id else st.2
  (ef, pf)

/-- Embedding of `detect_form_fields` (`attempt_login.py` 45-93). -/
def detect_form_fields (doc : HtmlDoc) : FormFields :=
  let fa := doc.form.map (fun f => f.action.getD "")
  let fm := match doc.form with
    | none => "post"
    | some f => str_lower (f.method.getD "post")
  let st := doc.inputs.foldl scan_step (none, none)
  ⟨st.1, st.2, fa, fm⟩

/-! ## Submit-URL resolution (`attempt_login.py` 190-197)

`urllib.parse.urljoin` is modelled after CPython's `Lib/urllib/parse.py`
on the reference shapes the engine can feed it (an `http`/`https` or
scheme-less base, references without `;`-parameters): the same split into
scheme, network location, path, query and fragment; the early return for
network-path references (`//host/...`), which replaces the host; the
empty-path case; the merge of a relative reference with the base path
(dropping the base's last segment and empty interior segments); and the
`.`/`..` dot-segment resolution. -/

/-- Characters of a host segment up to the first slash. -/
def up_to_slash : List Char → List Char
  | [] => []
  | c :: cs => if c = '/' then [] else c :: up_to_slash cs

/-- The remainder of a netloc-plus-path chunk from its first slash on. -/
def from_slash : List Char → List Char
  | [] => []
  | c :: cs => if c = '/' then c :: cs else from_slash cs

/-- Split at the first occurrence of `c`: the characters before it and the
characters after it (all of them, and `[]`, when `c` does not occur). -/
def split_first (c : Char) : List Char → List Char × List Char
  | [] => ([], [])
  | x :: xs =>
    if x = c then ([], xs)
    else
      let p := split_first c xs
      (x :: p.1, p.2)

/-- Python `s.split(sep)` for a one-character separator: never empty, one
entry per separator-delimited (possibly empty) chunk. -/
def py_split (c : Char) : List Char → List String
  | [] => [""]
  | x :: xs =>
    let rest := py_split c xs
    if x = c then "" :: rest
    else
      match rest with
      | [] => [String.mk [x]]
      | s :: t => String.mk (x :: s.data) :: t

/-- Python `sep.join(parts)` for a one-character separator. -/
def py_join (c : Char) : List String → List Char
  | [] => []
  | [s] => s.data
  | s :: t :: rest => s.data ++ c :: py_join c (t :: rest)

/-- The components `urlsplit` hands back. -/
structure UrlParts where
  scheme : String
  netloc : String
  path : String
  query : String
  fragment : String
deriving DecidableEq

/-- Model of `urllib.parse.urlsplit` for `http`/`https` and scheme-less
references: fragment after the first `#`, query after the first `?` of the
rest, then scheme and network location when the remainder starts with
`https://`, `http://` or `//`, the rest being the path. -/
def urlsplit_model (s : String) : UrlParts :=
  let pf := split_first '#' s.data
  let pq := split_first '?' pf.1
  let core := pq.1
  let query := String.mk pq.2
  let fragment := String.mk pf.2
  if "https://".data.isPrefixOf core then
    ⟨"https", String.mk (up_to_slash (core.drop 8)), String.mk (from_slash (core.drop 8)),
      query, fragment⟩
  else if "http://".data.isPrefixOf core then
    ⟨"http", String.mk (up_to_slash (core.drop 7)), String.mk (from_slash (core.drop 7)),
      query, fragment⟩
  else if "//".data.isPrefixOf core then
    ⟨"", String.mk (up_to_slash (core.drop 2)), String.mk (from_slash (core.drop 2)),
      query, fragment⟩
  else
    ⟨"", "", String.mk core, query, fragment⟩

/-- Model of `urllib.parse.urlunsplit` on such parts: `scheme:` when a
scheme is present, `//netloc` when a network location is present, then
path, `?query` and `#fragment` when non-empty. -/
def urlunsplit_model (p : UrlParts) : String :=
  String.mk (
    (if p.scheme = "" then [] else p.scheme.data ++ [':'])
    ++ (if p.netloc = "" then [] else '/' :: '/' :: p.netloc.data)
    ++ p.path.data
    ++ (if p.query = "" then [] else '?' :: p.query.data)
    ++ (if p.fragment = "" then [] else '#' :: p.fragment.data))

/-- The scheme-plus-host part of a URL, as `urlsplit`/`urlunsplit` see it. -/
def origin (url : String) : String :=
  urlunsplit_model ⟨(urlsplit_model url).scheme, (urlsplit_model url).netloc, "", "", ""⟩

/-- Drop empty segments, keeping the last entry even when empty
(Python's `segments[1:-1] = filter(None, segments[1:-1])` applied to a
tail). -/
def keep_last_filter : List String → List String
  | [] => []
  | [x] => [x]
  | x :: xs => if x = "" then keep_last_filter xs else x :: keep_last_filter xs

/-- Merge a base path's segments with a relative reference's segments:
the base's last segment is dropped unless empty, and empty interior
segments of the concatenation are filtered out. -/
def merge_segments (bp rp : List String) : List String :=
  let bp2 := if bp.getLast? = some "" then bp else bp.dropLast
  match bp2 ++ rp with
  | [] => []
  | x :: xs => x :: keep_last_filter xs

/-- The dot-segment loop of `urljoin`: `..` pops the accumulated path
(ignoring underflow), `.` is skipped, anything else is appended. -/
def resolve_dots (acc : List String) : List String → List String
  | [] => acc
  | seg :: rest =>
    if seg = ".." then resolve_dots acc.dropLast rest
    else if seg = "." then resolve_dots acc rest
    else resolve_dots (acc ++ [seg]) rest

/-- Model of `urllib.parse.urljoin` (see the section comment): the empty
base or reference short-circuits; a reference of a different scheme is
returned as is; a reference with a network location keeps only the base's
scheme; an empty reference path keeps the base path; otherwise the
reference path (merged with the base path when relative) goes through
dot-segment resolution, an empty result becoming `/`. -/
def urljoin (base rel : String) : String :=
  if base = "" then rel
  else if rel = "" then base
  else
    let b := urlsplit_model base
    let r := urlsplit_model rel
    if r.scheme ≠ "" ∧ r.scheme ≠ b.scheme then rel
    else if r.netloc ≠ "" then
      urlunsplit_model ⟨b.scheme, r.netloc, r.path, r.query, r.fragment⟩
    else if r.path = "" then
      urlunsplit_model ⟨b.scheme, b.netloc, b.path,
        (if r.query = "" then b.query else r.query), r.fragment⟩
    else
      let segments :=
        if str_starts_with r.path "/" then py_split '/' r.path.data
        else merge_segments (py_split '/' b.path.data) (py_split '/' r.path.data)
      let resolved :=
        if segments.getLast? = some "." ∨ segments.getLast? = some ".." then
          resolve_dots [] segments ++ [""]
        else resolve_dots [] segments
      let joined := String.mk (py_join '/' resolved)
      urlunsplit_model ⟨b.scheme, b.netloc, (if joined = "" then "/" else joined),
        r.query, r.fragment⟩

/-- Embedding of the `post_url` computation (`attempt_login.py` 190-197):
`post_url` starts as the page URL, and is only replaced when the action is
truthy and either `http`-prefixed (verbatim) or `/`-prefixed (joined);
any other truthy action leaves `post_url` untouched. -/
def resolve_post_url (url : String) (form_action : Option String) : String :=
  match form_action with
  | none => url
  | some a =>
    if a = "" then url
    else if str_starts_with a "http" then a
    else if str_starts_with a "/" then urljoin url a
    else url

/-- Modelled from the spec: section 4.2's resolution rule, under which
"all other truthy values are resolved as a relative reference against the
page URL" (the source instead leaves such actions unresolved). -/
def resolve_post_url_spec (url : String) (form_action : Option String) : String :=
  match form_action with
  | none => url
  | some a =>
    if a = "" then url
    else if str_starts_with a "http" then a
    else if str_starts_with a "/" then urljoin url a
    else urljoin url a

/-! ## Credential-trial response classification (`attempt_login.py` 237-279) -/

/-- One HTTP response as the credential loop inspects it: status code,
body text, and the `Location` header (`""` when absent, matching
`response.headers.get('Location', '')`). -/
structure CredResponse where
  status : Nat
  body : String
  location : String
deriving DecidableEq

/-- The blocking substrings of `attempt_login.py` lines 246-253. -/
def blocking_indicators : List String :=
  [ "captcha"
  , "too many attempts"
  , "account locked"
  , "temporarily blocked"
  , "suspicious activity"
  , "rate limit" ]

/-- Does the case-folded body contain a blocking substring
(`attempt_login.py` line 255)? -/
def has_blocking_indicator (body : String) : Bool :=
  blocking_indicators.any (fun ind => str_contains (str_lower body) ind)

/-- The success-indicator disjunction of `attempt_login.py` lines 263-270. -/
def success_indicator (r : CredResponse) : Bool :=
  (r.status == 200 || r.status == 302 || r.status == 301)
    || str_contains (str_lower r.body) "dashboard"
    || str_contains (str_lower r.body) "welcome"
    || str_contains (str_lower r.body) "logout"
    || (str_ends_with r.location "/dashboard" || str_ends_with r.location "/home")

/-- How the credential loop judges one completed exchange. -/
inductive CredVerdict where
  | blockedByStatus
  | blockedByContent
  | succeeded
  | failed
deriving DecidableEq

/-- The check chain of the credential loop body, in source order: status in
`[429, 403]`, then blocking substrings, then the success indicators, else a
failed attempt that continues. -/
def classify_credential_response (r : CredResponse) : CredVerdict :=
  if r.status = 429 ∨ r.status = 403 then CredVerdict.blockedByStatus
  else if has_blocking_indicator r.body then CredVerdict.blockedByContent
  else if success_indicator r then CredVerdict.succeeded
  else CredVerdict.failed

/-- Is a verdict one of the two blocking outcomes? -/
def is_blocked_verdict : CredVerdict → Bool
  | CredVerdict.blockedByStatus => true
  | CredVerdict.blockedByContent => true
  | CredVerdict.succeeded => false
  | CredVerdict.failed => false

/-! ## Credential-trial loop (`attempt_credential_combinations`) -/

/-- The error messages the credential run can set. -/
inductive CredErr where
  | fieldsNotDetected
  | rateLimited (code : Nat)
  | blockingMessage
  | connRefused
  | timeoutMsg
  | requestExc
deriving DecidableEq

/-- The literal message strings of the source for each error case. -/
def cred_error_text : CredErr → String
  | CredErr.fieldsNotDetected => "Could not detect email/password fields in the form"
  | CredErr.rateLimited code => "Rate limited/blocked (Status " ++ toString code ++ ")"
  | CredErr.blockingMessage => "Detected blocking message in response"
  | CredErr.connRefused => "Connection refused - likely blocked at network level"
  | CredErr.timeoutMsg => "Request timeout - possible blocking"
  | CredErr.requestExc => "Request exception"

/-- One attempted exchange as the environment resolves it: either a
completed response or one of the transport failures the loop catches. -/
inductive CredExchange where
  | ok (r : CredResponse)
  | connError
  | timeoutErr
  | reqException

/-- The dictionary returned by `attempt_credential_combinations`. -/
structure CredResult where
  attempts : Nat
  blocked : Bool
  status_code : Option Nat
  error_message : Option CredErr
  successful : Bool
  working_credentials : List (String × String)
deriving DecidableEq

/-- Has the `max_attempts` cap been reached (`attempts >= max_attempts`,
with `None` meaning unlimited)? -/
def max_reached : Option Nat → Nat → Bool
  | none, _ => false
  | some m, a => m ≤ a

/-- The `(email, password)` pairs fed to the loop:
`itertools.product(emails, passwords)`, identity-major. -/
def credential_pairs : List String → List String → List (String × String)
  | [], _ => []
  | e :: es, passwords => passwords.map (fun p => (e, p)) ++ credential_pairs es passwords

/-- The credential loop (`attempt_login.py` 200-306) over the remaining
`(email, password)` pairs and the environment's remaining exchanges, also
returning the exchanges left unconsumed (as `probe_aux` does).  The cap is
checked before each exchange; a completed response updates `final_status`
and is classified; `Succeeded` records the pair and keeps going; both
blocking verdicts and every transport failure terminate; an exhausted pair
list (or an environment with no further exchanges to observe) ends the run
unblocked. -/
def cred_aux (maxA : Option Nat) : Nat → Option Nat → Bool → List (String × String) →
    List (String × String) → List CredExchange → CredResult × List CredExchange
  | attempts, fs, suc, wk, [], resps => (⟨attempts, false, fs, none, suc, wk⟩, resps)
  | attempts, fs, suc, wk, (e, p) :: prs, resps =>
    if max_reached maxA attempts then (⟨attempts, false, fs, none, suc, wk⟩, resps)
    else match resps with
      | [] => (⟨attempts, false, fs, none, suc, wk⟩, [])
      | CredExchange.ok r :: rest =>
        match classify_credential_response r with
        | CredVerdict.blockedByStatus =>
          (⟨attempts + 1, true, some r.status, some (CredErr.rateLimited r.status), suc, wk⟩, rest)
        | CredVerdict.blockedByContent =>
          (⟨attempts + 1, true, some r.status, some CredErr.blockingMessage, suc, wk⟩, rest)
        | CredVerdict.succeeded =>
          cred_aux maxA (attempts + 1) (some r.status) true (wk ++ [(e, p)]) prs rest
        | CredVerdict.failed =>
          cred_aux maxA (attempts + 1) (some r.status) suc wk prs rest
      | CredExchange.connError :: rest =>
        (⟨attempts + 1, true, fs, some CredErr.connRefused, suc, wk⟩, rest)
      | CredExchange.timeoutErr :: rest =>
        (⟨attempts + 1, true, fs, some CredErr.timeoutMsg, suc, wk⟩, rest)
      | CredExchange.reqException :: rest =>
        (⟨attempts + 1, true, fs, some CredErr.requestExc, suc, wk⟩, rest)

/-- The `login_data` dictionary `{email_field: email, password_field:
password}` (`attempt_login.py` 210-213), with Python dict-literal
semantics: a repeated key keeps one slot and the later value wins. -/
def dict_insert : List (String × String) → String → String → List (String × String)
  | [], k, v => [(k, v)]
  | (k', v') :: t, k, v => if k' = k then (k, v) :: t else (k', v') :: dict_insert t k v

/-- Build the login body from the two detected field names. -/
def build_login_data (ef pf email password : String) : List (String × String) :=
  dict_insert (dict_insert [] ef email) pf password

/-- Embedding of `attempt_credential_combinations` (`attempt_login.py`
96-344).  `pageStatus` is the status of the initial GET of the login page,
`doc` its parsed body, `rnd` the random draws of the generator, and
`responses` the environment's successive answers to the login POSTs.  When
either detected field is falsy the run aborts with zero attempts; otherwise
the passwords are generated with the default `max_per_keyword = 10` and the
identity-major pair sequence is fed to the loop. -/
def attempt_credential_combinations (pageStatus : Nat) (doc : HtmlDoc)
    (emails keywords : List String) (maxA : Option Nat) (rnd : Nat → Nat)
    (responses : List CredExchange) : CredResult :=
  if pyTruthy (detect_form_fields doc).email_field
      && pyTruthy (detect_form_fields doc).password_field then
    (cred_aux maxA 0 none false []
      (credential_pairs emails (generate_password_combinations keywords 10 rnd)) responses).1
  else
    ⟨0, false, some pageStatus, some CredErr.fieldsNotDetected, false, []⟩

/-! ## Generic probe loop (`ddos.py`, `make_requests_until_blocked`) -/

/-- One probe exchange as the environment resolves it. -/
inductive Exchange where
  | ok (status : Nat)
  | connError
  | timeoutErr
  | reqException

/-- How the generic probe judges one completed response's status code. -/
inductive ProbeVerdict where
  | success
  | blockedStatus
  | errorStatus
deriving DecidableEq

/-- The status-code check chain of `ddos.py` lines 97-110: the explicit
block list `[429, 403, 503]` first, then any other status `>= 400`, else a
successful request. -/
def classify_probe_status (s : Nat) : ProbeVerdict :=
  if s = 429 ∨ s = 403 ∨ s = 503 then ProbeVerdict.blockedStatus
  else if 400 ≤ s then ProbeVerdict.errorStatus
  else ProbeVerdict.success

/-- The error messages the generic probe can set. -/
inductive ProbeErr where
  | blockedStatusMsg (code : Nat)
  | errorStatusMsg (code : Nat)
  | connectionErr
  | timeoutErrMsg
  | requestExcMsg
deriving DecidableEq

/-- The dictionary returned by `make_requests_until_blocked`. -/
structure ProbeResult where
  success_count : Nat
  total_attempts : Nat
  blocked : Bool
  status_code : Option Nat
  error_message : Option ProbeErr
deriving DecidableEq

/-- The generic probe loop (`ddos.py` 61-134), also returning the
environment exchanges left unconsumed.  The cap is checked before each
exchange; a completed response updates `final_status` and is classified;
blocked and error statuses and every transport failure terminate; success
increments `success_count` and continues. -/
def probe_aux (maxA : Option Nat) : Nat → Nat → Option Nat → List Exchange →
    ProbeResult × List Exchange
  | succ, total, fs, rs =>
    if max_reached maxA total then (⟨succ, total, false, fs, none⟩, rs)
    else match rs with
      | [] => (⟨succ, total, false, fs, none⟩, [])
      | Exchange.ok s :: rest =>
        match classify_probe_status s with
        | ProbeVerdict.blockedStatus =>
          (⟨succ, total + 1, true, some s, some (ProbeErr.blockedStatusMsg s)⟩, rest)
        | ProbeVerdict.errorStatus =>
          (⟨succ, total + 1, true, some s, some (ProbeErr.errorStatusMsg s)⟩, rest)
        | ProbeVerdict.success =>
          probe_aux maxA (succ + 1) (total + 1) (some s) rest
      | Exchange.connError :: rest =>
        (⟨succ, total + 1, true, fs, some ProbeErr.connectionErr⟩, rest)
      | Exchange.timeoutErr :: rest =>
        (⟨succ, total + 1, true, fs, some ProbeErr.timeoutErrMsg⟩, rest)
      | Exchange.reqException :: rest =>
        (⟨succ, total + 1, true, fs, some ProbeErr.requestExcMsg⟩, rest)

/-- Embedding of `make_requests_until_blocked` (`ddos.py` 11-162) over the
environment's successive answers. -/
def make_requests_until_blocked (maxA : Option Nat) (responses : List Exchange) : ProbeResult :=
  (probe_aux maxA 0 0 none responses).1

/-- Is one environment exchange a completed response the probe counts as a
success (status below 400)? -/
def exchange_ok : Exchange → Bool
  | Exchange.ok s => decide (s < 400)
  | _ => false

/-! ## Concrete fixtures used by the closed theorems -/

/-- A fixed value for the generator's `random.randint(1, 99)` draws. -/
def rnd0 : Nat → Nat := fun _ => 7

/-- A login page with a detectable text identity field and a password field. -/
def page_with_login_form : HtmlDoc :=
  ⟨some ⟨some "/login", some "POST"⟩,
   [⟨some "email", some "text", none⟩, ⟨some "pass", some "password", none⟩]⟩

/-- A page whose only input is a text field, so no password field exists. -/
def page_without_password_field : HtmlDoc :=
  ⟨none, [⟨some "email", some "text", none⟩]⟩

/-- A lone password input whose `name` contains the identity token `user`. -/
def lone_user_password_input : InputField :=
  ⟨some "user_password", some "password", none⟩

/-- A credential run against a server that accepts the first login with a
`200` and answers the second attempt with a `429`. -/
def success_then_block_run : CredResult :=
  attempt_credential_combinations 200 page_with_login_form
    ["a@x.com"] ["pw"] none rnd0
    [CredExchange.ok ⟨200, "", ""⟩, CredExchange.ok ⟨429, "", ""⟩]

/-! ## Helper lemmas -/

lemma not_mem_seen_of_mem_dedup_aux (x : String) (l : List String) :
    ∀ seen, x ∈ dedup_aux seen l → x ∉ seen := by
  induction l with
  | nil => intro seen h; simp [dedup_aux] at h
  | cons p ps ih =>
    intro seen h
    by_cases hp : p ∈ seen
    · simp only [dedup_aux, if_pos hp] at h
      exact ih seen h
    · simp only [dedup_aux, if_neg hp, List.mem_cons] at h
      rcases h with h | h
      · subst h; exact hp
      · have hx := ih (p :: seen) h
        intro hmem
        exact hx (List.mem_cons_of_mem _ hmem)

lemma dedup_aux_pairwise (l : List String) :
    ∀ seen, (dedup_aux seen l).Pairwise (fun a b => first_idx a l < first_idx b l) := by
  induction l with
  | nil => intro seen; simp [dedup_aux]
  | cons p ps ih =>
    intro seen
    by_cases hp : p ∈ seen
    · simp only [dedup_aux, if_pos hp]
      refine List.Pairwise.imp_of_mem ?_ (ih seen)
      intro a b ha hb hab
      have hna := not_mem_seen_of_mem_dedup_aux a ps seen ha
      have hnb := not_mem_seen_of_mem_dedup_aux b ps seen hb
      have hap : ¬(p = a) := fun h => hna (h ▸ hp)
      have hbp : ¬(p = b) := fun h => hnb (h ▸ hp)
      simp only [first_idx, if_neg hap, if_neg hbp]
      omega
    · simp only [dedup_aux, if_neg hp, List.pairwise_cons]
      constructor
      · intro b hb
        have hnb := not_mem_seen_of_mem_dedup_aux b ps (p :: seen) hb
        have hbp : ¬(p = b) := fun h => hnb (h ▸ List.mem_cons_self p seen)
        simp only [first_idx, if_neg hbp]
        simp only [if_true]
        omega
      · refine List.Pairwise.imp_of_mem ?_ (ih (p :: seen))
        intro a b ha hb hab
        have hna := not_mem_seen_of_mem_dedup_aux a ps (p :: seen) ha
        have hnb := not_mem_seen_of_mem_dedup_aux b ps (p :: seen) hb
        have hap : ¬(p = a) := fun h => hna (h ▸ List.mem_cons_self p seen)
        have hbp : ¬(p = b) := fun h => hnb (h ▸ List.mem_cons_self p seen)
        simp only [first_idx, if_neg hap, if_neg hbp]
        omega

lemma dedup_aux_length (l : List String) :
    ∀ seen, (dedup_aux seen l).length ≤ l.length := by
  induction l with
  | nil => intro seen; simp [dedup_aux]
  | cons p ps ih =>
    intro seen
    by_cases hp : p ∈ seen
    · simp only [dedup_aux, if_pos hp, List.length_cons]
      exact Nat.le_succ_of_le (ih seen)
    · simp only [dedup_aux, if_neg hp, List.length_cons]
      exact Nat.succ_le_succ (ih (p :: seen))

lemma all_variations_length (m : Nat) (rnd : Nat → Nat) (ks : List String) :
    ∀ i, (all_variations m rnd i ks).length ≤ ks.length * m := by
  induction ks with
  | nil => intro i; simp [all_variations]
  | cons k ks ih =>
    intro i
    have h2 := ih (i + 1)
    have h3 : (List.take m (variations k (rnd i))).length ≤ m := by
      rw [List.length_take]; exact Nat.min_le_left m _
    calc (all_variations m rnd i (k :: ks)).length
        = (List.take m (variations k (rnd i))).length
            + (all_variations m rnd (i + 1) ks).length := by
          simp [all_variations]
      _ ≤ m + ks.length * m := Nat.add_le_add h3 h2
      _ = (k :: ks).length * m := by simp [List.length_cons]; ring

lemma all_variations_zero (rnd : Nat → Nat) (ks : List String) :
    ∀ i, all_variations 0 rnd i ks = [] := by
  induction ks with
  | nil => intro i; rfl
  | cons k ks ih => intro i; simp [all_variations, ih (i + 1)]

lemma probe_aux_total_le (m : Nat) (rs : List Exchange) :
    ∀ succ total fs, total ≤ m →
      (probe_aux (some m) succ total fs rs).1.total_attempts ≤ m := by
  induction rs with
  | nil =>
    intro succ total fs h
    rw [probe_aux.eq_def]
    by_cases hm : max_reached (some m) total <;> simp [hm] <;> exact h
  | cons e rest ih =>
    intro succ total fs h
    rw [probe_aux.eq_def]
    by_cases hm : max_reached (some m) total
    · simpa [hm] using h
    · have hlt : total < m := by simpa [max_reached] using hm
      cases e with
      | ok s =>
        rcases hcs : classify_probe_status s with _ | _ | _ <;>
          simp [hm, hcs] <;> first
          | exact ih (succ + 1) (total + 1) (some s) (by omega)
          | omega
      | connError => simp [hm]; omega
      | timeoutErr => simp [hm]; omega
      | reqException => simp [hm]; omega

lemma probe_aux_total_mono (maxA : Option Nat) (rs : List Exchange) :
    ∀ succ total fs, total ≤ (probe_aux maxA succ total fs rs).1.total_attempts := by
  induction rs with
  | nil =>
    intro succ total fs
    rw [probe_aux.eq_def]
    by_cases hm : max_reached maxA total <;> simp [hm]
  | cons e rest ih =>
    intro succ total fs
    rw [probe_aux.eq_def]
    by_cases hm : max_reached maxA total
    · simp [hm]
    · cases e with
      | ok s =>
        rcases hcs : classify_probe_status s with _ | _ | _ <;> simp [hm, hcs]
        exact le_trans (Nat.le_succ total) (ih (succ + 1) (total + 1) (some s))
      | connError => simp [hm]
      | timeoutErr => simp [hm]
      | reqException => simp [hm]

lemma probe_aux_consumed (maxA : Option Nat) (rs : List Exchange) :
    ∀ succ total fs,
      (probe_aux maxA succ total fs rs).1.total_attempts
        + (probe_aux maxA succ total fs rs).2.length
      = total + rs.length := by
  induction rs with
  | nil =>
    intro succ total fs
    rw [probe_aux.eq_def]
    by_cases hm : max_reached maxA total <;> simp [hm]
  | cons e rest ih =>
    intro succ total fs
    rw [probe_aux.eq_def]
    by_cases hm : max_reached maxA total
    · simp [hm]
    · cases e with
      | ok s =>
        rcases hcs : classify_probe_status s with _ | _ | _ <;> simp [hm, hcs]
        · have := ih (succ + 1) (total + 1) (some s)
          omega
        · omega
        · omega
      | connError => simp [hm]; omega
      | timeoutErr => simp [hm]; omega
      | reqException => simp [hm]; omega

lemma classify_lt_400 (s : Nat) (h : s < 400) :
    classify_probe_status s = ProbeVerdict.success := by
  unfold classify_probe_status
  have h1 : ¬(s = 429 ∨ s = 403 ∨ s = 503) := by omega
  have h2 : ¬(400 ≤ s) := by omega
  simp [h1, h2]

lemma probe_aux_no_block (maxA : Option Nat) (rs : List Exchange) :
    ∀ succ total fs, (∀ e ∈ rs, exchange_ok e = true) →
      (probe_aux maxA succ total fs rs).1.blocked = false := by
  induction rs with
  | nil =>
    intro succ total fs _
    rw [probe_aux.eq_def]
    by_cases hm : max_reached maxA total <;> simp [hm]
  | cons e rest ih =>
    intro succ total fs hok
    rw [probe_aux.eq_def]
    by_cases hm : max_reached maxA total
    · simp [hm]
    · cases e with
      | ok s =>
        have hs : s < 400 := by
          have := hok (Exchange.ok s) (List.mem_cons_self _ _)
          simpa [exchange_ok] using this
        have hrest : ∀ e ∈ rest, exchange_ok e = true :=
          fun e he => hok e (List.mem_cons_of_mem _ he)
        simp [hm, classify_lt_400 s hs]
        exact ih (succ + 1) (total + 1) (some s) hrest
      | connError =>
        have := hok Exchange.connError (List.mem_cons_self _ _)
        simp [exchange_ok] at this
      | timeoutErr =>
        have := hok Exchange.timeoutErr (List.mem_cons_self _ _)
        simp [exchange_ok] at this
      | reqException =>
        have := hok Exchange.reqException (List.mem_cons_self _ _)
        simp [exchange_ok] at this

lemma cred_aux_attempts_le (m : Nat) (pairs : List (String × String)) :
    ∀ resps attempts fs suc wk, attempts ≤ m →
      (cred_aux (some m) attempts fs suc wk pairs resps).1.attempts ≤ m := by
  induction pairs with
  | nil => intro resps attempts fs suc wk h; rw [cred_aux.eq_def]; exact h
  | cons ep prs ih =>
    intro resps attempts fs suc wk h
    obtain ⟨e, p⟩ := ep
    rw [cred_aux.eq_def]
    by_cases hm : max_reached (some m) attempts
    · simpa [hm] using h
    · have hlt : attempts < m := by simpa [max_reached] using hm
      cases resps with
      | nil => simp [hm]; omega
      | cons x rest =>
        cases x with
        | ok r =>
          rcases hcs : classify_credential_response r with _ | _ | _ | _ <;>
            simp [hm, hcs] <;> first
            | exact ih rest (attempts + 1) (some r.status) true (wk ++ [(e, p)]) (by omega)
            | exact ih rest (attempts + 1) (some r.status) suc wk (by omega)
            | omega
        | connError => simp [hm]; omega
        | timeoutErr => simp [hm]; omega
        | reqException => simp [hm]; omega

lemma cred_aux_attempts_mono (maxA : Option Nat) (pairs : List (String × String)) :
    ∀ resps attempts fs suc wk,
      attempts ≤ (cred_aux maxA attempts fs suc wk pairs resps).1.attempts := by
  induction pairs with
  | nil => intro resps attempts fs suc wk; rw [cred_aux.eq_def]
  | cons ep prs ih =>
    intro resps attempts fs suc wk
    obtain ⟨e, p⟩ := ep
    rw [cred_aux.eq_def]
    by_cases hm : max_reached maxA attempts
    · simp [hm]
    · cases resps with
      | nil => simp [hm]
      | cons x rest =>
        cases x with
        | ok r =>
          rcases hcs : classify_credential_response r with _ | _ | _ | _ <;>
            simp [hm, hcs] <;> first
            | exact le_trans (Nat.le_succ attempts)
                (ih rest (attempts + 1) (some r.status) true (wk ++ [(e, p)]))
            | exact le_trans (Nat.le_succ attempts)
                (ih rest (attempts + 1) (some r.status) suc wk)
            | omega
        | connError => simp [hm]
        | timeoutErr => simp [hm]
        | reqException => simp [hm]

lemma cred_aux_consumed (maxA : Option Nat) (pairs : List (String × String)) :
    ∀ resps attempts fs suc wk,
      (cred_aux maxA attempts fs suc wk pairs resps).1.attempts
        + (cred_aux maxA attempts fs suc wk pairs resps).2.length
      = attempts + resps.length := by
  induction pairs with
  | nil => intro resps attempts fs suc wk; rw [cred_aux.eq_def]
  | cons ep prs ih =>
    intro resps attempts fs suc wk
    obtain ⟨e, p⟩ := ep
    rw [cred_aux.eq_def]
    by_cases hm : max_reached maxA attempts
    · simp [hm]
    · cases resps with
      | nil => simp [hm]
      | cons x rest =>
        cases x with
        | ok r =>
          rcases hcs : classify_credential_response r with _ | _ | _ | _ <;> simp [hm, hcs]
          · omega
          · omega
          · have := ih rest (attempts + 1) (some r.status) true (wk ++ [(e, p)])
            omega
          · have := ih rest (attempts + 1) (some r.status) suc wk
            omega
        | connError => simp [hm]; omega
        | timeoutErr => simp [hm]; omega
        | reqException => simp [hm]; omega

lemma split_first_of_not_mem (c : Char) (l : List Char) (h : ∀ x ∈ l, x ≠ c) :
    split_first c l = (l, []) := by
  induction l with
  | nil => rfl
  | cons x xs ih =>
    have hx : ¬(x = c) := h x (List.mem_cons_self x xs)
    simp only [split_first, if_neg hx, ih (fun y hy => h y (List.mem_cons_of_mem x hy))]

lemma isPrefixOf_cons_ne (p c : Char) (ps cs : List Char) (h : (p == c) = false) :
    List.isPrefixOf (p :: ps) (c :: cs) = false := by
  simp [List.isPrefixOf, h]

lemma starts_with_slash_head (a : String) (h : str_starts_with a "/" = true) :
    ∃ cs, a.data = '/' :: cs := by
  unfold str_starts_with at h
  rw [show ("/" : String).data = ['/'] from rfl] at h
  cases hd : a.data with
  | nil => rw [hd] at h; simp [List.isPrefixOf] at h
  | cons c cs =>
    rw [hd] at h
    simp [List.isPrefixOf] at h
    exact ⟨cs, by rw [h]⟩

lemma ne_empty_of_data_cons (a : String) (c : Char) (cs : List Char)
    (h : a.data = c :: cs) : a ≠ "" := by
  intro he
  rw [he] at h
  simp at h

lemma slash_not_http (a : String) (h : str_starts_with a "/" = true) :
    str_starts_with a "http" = false := by
  obtain ⟨cs, hd⟩ := starts_with_slash_head a h
  unfold str_starts_with
  rw [hd, show ("http" : String).data = 'h' :: ('t' :: ('t' :: ('p' :: []))) from rfl]
  exact isPrefixOf_cons_ne 'h' '/' _ _ (by decide)

lemma urlsplit_slash_ref (a : String)
    (h1 : str_starts_with a "/" = true)
    (h2 : str_starts_with a "//" = false)
    (h3 : ∀ x ∈ a.data, x ≠ '#' ∧ x ≠ '?') :
    urlsplit_model a = ⟨"", "", a, "", ""⟩ := by
  obtain ⟨cs, hd⟩ := starts_with_slash_head a h1
  have hsf1 : split_first '#' a.data = (a.data, []) :=
    split_first_of_not_mem '#' a.data (fun x hx => (h3 x hx).1)
  have hsf2 : split_first '?' a.data = (a.data, []) :=
    split_first_of_not_mem '?' a.data (fun x hx => (h3 x hx).2)
  have hp1 : "https://".data.isPrefixOf a.data = false := by
    rw [hd, show ("https://" : String).data = 'h' :: "ttps://".data from rfl]
    exact isPrefixOf_cons_ne 'h' '/' _ _ (by decide)
  have hp2 : "http://".data.isPrefixOf a.data = false := by
    rw [hd, show ("http://" : String).data = 'h' :: "ttp://".data from rfl]
    exact isPrefixOf_cons_ne 'h' '/' _ _ (by decide)
  have hp3 : "//".data.isPrefixOf a.data = false := by
    unfold str_starts_with at h2
    exact h2
  simp only [urlsplit_model, hsf1, hsf2, hp1, hp2, hp3, Bool.false_eq_true, if_false]

lemma resolve_dots_no_dots (segs : List String)
    (h : ∀ seg ∈ segs, seg ≠ "." ∧ seg ≠ "..") :
    ∀ acc, resolve_dots acc segs = acc ++ segs := by
  induction segs with
  | nil => intro acc; simp [resolve_dots]
  | cons s t ih =>
    intro acc
    have hs := h s (List.mem_cons_self s t)
    simp only [resolve_dots, if_neg hs.2, if_neg hs.1]
    rw [ih (fun x hx => h x (List.mem_cons_of_mem s hx)) (acc ++ [s])]
    simp

lemma py_split_ne_nil (c : Char) (cs : List Char) : py_split c cs ≠ [] := by
  cases cs with
  | nil => simp [py_split]
  | cons x xs =>
    rw [py_split]
    by_cases hx : x = c
    · simp [hx]
    · simp only [if_neg hx]
      cases py_split c xs with
      | nil => simp
      | cons s t => simp

lemma py_join_py_split (c : Char) (cs : List Char) :
    py_join c (py_split c cs) = cs := by
  induction cs with
  | nil => rfl
  | cons x xs ih =>
    rw [py_split]
    by_cases hx : x = c
    · simp only [if_pos hx]
      cases hr : py_split c xs with
      | nil => exact absurd hr (py_split_ne_nil c xs)
      | cons s t =>
        have h1 : py_join c ("" :: s :: t) = c :: py_join c (s :: t) := rfl
        rw [h1, ← hr, ih, hx]
    · simp only [if_neg hx]
      cases hr : py_split c xs with
      | nil => exact absurd hr (py_split_ne_nil c xs)
      | cons s t =>
        cases t with
        | nil =>
          have h1 : py_join c [String.mk (x :: s.data)] = x :: s.data := rfl
          have h2 : py_join c [s] = xs := by rw [← hr, ih]
          have h3 : s.data = xs := h2
          rw [h1, h3]
        | cons u v =>
          have h1 : py_join c (String.mk (x :: s.data) :: u :: v)
              = (x :: s.data) ++ c :: py_join c (u :: v) := rfl
          have h2 : py_join c (s :: u :: v) = xs := by rw [← hr, ih]
          have h3 : s.data ++ c :: py_join c (u :: v) = xs := h2
          rw [h1]
          simp only [List.cons_append]
          rw [h3]

lemma mem_of_getLast?_eq (l : List String) (x : String) (h : l.getLast? = some x) :
    x ∈ l := by
  induction l with
  | nil => simp at h
  | cons a t ih =>
    cases t with
    | nil =>
      simp [List.getLast?] at h
      simp [h]
    | cons b t2 =>
      rw [List.getLast?_cons_cons] at h
      exact List.mem_cons_of_mem _ (ih h)

lemma str_mk_append (l : List Char) (t : String) :
    String.mk l ++ t = String.mk (l ++ t.data) := by
  apply String.ext
  cases t with
  | mk m => rfl

lemma urlunsplit_path_append (s n p : String) :
    urlunsplit_model ⟨s, n, p, "", ""⟩ = urlunsplit_model ⟨s, n, "", "", ""⟩ ++ p := by
  unfold urlunsplit_model
  rw [str_mk_append]
  apply String.ext
  simp

lemma urljoin_slash_clean (url a : String)
    (h1 : str_starts_with a "/" = true)
    (h2 : str_starts_with a "//" = false)
    (h3 : ∀ x ∈ a.data, x ≠ '#' ∧ x ≠ '?')
    (h4 : ∀ seg ∈ py_split '/' a.data, seg ≠ "." ∧ seg ≠ "..") :
    urljoin url a = origin url ++ a := by
  obtain ⟨cs, hd⟩ := starts_with_slash_head a h1
  have hane : a ≠ "" := ne_empty_of_data_cons a '/' cs hd
  have hsplit := urlsplit_slash_ref a h1 h2 h3
  have hlast : ¬((py_split '/' a.data).getLast? = some "."
      ∨ (py_split '/' a.data).getLast? = some "..") := by
    rintro (hc | hc)
    · exact (h4 "." (mem_of_getLast?_eq _ _ hc)).1 rfl
    · exact (h4 ".." (mem_of_getLast?_eq _ _ hc)).2 rfl
  have hjoined : String.mk (py_join '/' (resolve_dots [] (py_split '/' a.data))) = a := by
    rw [resolve_dots_no_dots (py_split '/' a.data) h4 []]
    rw [List.nil_append, py_join_py_split]
  by_cases hurl : url = ""
  · subst hurl
    rw [urljoin, if_pos rfl]
    have horig : origin "" = "" := rfl
    rw [horig]
    apply String.ext
    simp
  · rw [urljoin, if_neg hurl, if_neg hane]
    simp only [hsplit]
    rw [if_neg (by simp), if_neg (by simp), if_neg hane]
    simp only [h1, if_true, if_neg hlast, hjoined, if_neg hane]
    exact urlunsplit_path_append _ _ a

/-! ## Claim theorems -/

/-- Claim C3: whenever the case-folded response body contains one of the
blocking substrings, the credential-trial verdict is `Blocked` — for every
response, hence in particular also when a success indicator (status 200, a
`dashboard`/`welcome`/`logout` body, a redirect location) holds as well;
and outside the `429`/`403` status branch the verdict is specifically the
blocking-message one. -/
theorem blocking_indicator_overrides_success (r : CredResponse)
    (h : has_blocking_indicator r.body = true) :
    is_blocked_verdict (classify_credential_response r) = true
    ∧ (r.status ≠ 429 → r.status ≠ 403 →
        classify_credential_response r = CredVerdict.blockedByContent) := by
  constructor
  · unfold classify_credential_response
    by_cases h1 : r.status = 429 ∨ r.status = 403
    · simp [h1, is_blocked_verdict]
    · simp [h1, h, is_blocked_verdict]
  · intro h2 h3
    have h1 : ¬(r.status = 429 ∨ r.status = 403) := by tauto
    unfold classify_credential_response
    simp [h1, h]

/-- Witness for C3: a response with status 200 whose body carries both
success words and the `captcha` blocking substring is still judged
blocked, by the blocking-message branch. -/
theorem blocking_indicator_overrides_success_witness :
    is_blocked_verdict
      (classify_credential_response ⟨200, "Welcome! CAPTCHA required. dashboard", ""⟩) = true
    ∧ classify_credential_response ⟨200, "Welcome! CAPTCHA required. dashboard", ""⟩
      = CredVerdict.blockedByContent :=
  ⟨(blocking_indicator_overrides_success ⟨200, "Welcome! CAPTCHA required. dashboard", ""⟩
      (by decide)).1,
   (blocking_indicator_overrides_success ⟨200, "Welcome! CAPTCHA required. dashboard", ""⟩
      (by decide)).2 (by decide) (by decide)⟩

/-- Counterexample for C5: with an empty seed list the generator does not
fail with an `InvalidArgument` error — it silently returns the empty
list. -/
theorem generator_no_validation_counterexample :
    generate_password_combinations [] 10 rnd0 = [] := rfl

/-- Claim C5 as amended: the generator performs no input validation; for an
empty seed list, and likewise for `max_per_keyword = 0`, it silently
returns the empty list instead of raising an error. -/
theorem generator_silently_returns_empty (keywords : List String) (m : Nat)
    (rnd : Nat → Nat) :
    generate_password_combinations [] m rnd = []
    ∧ generate_password_combinations keywords 0 rnd = [] := by
  constructor
  · rfl
  · unfold generate_password_combinations
    rw [all_variations_zero rnd keywords 0]
    rfl

/-- Counterexample for C7: status 503 is classified by the explicit
status-set branch (the "rate limited/blocked" reason), although 503 is not
in the claimed set `{429, 403}` — the error-status rule never sees it. -/
theorem status_503_in_block_list_counterexample :
    classify_probe_status 503 = ProbeVerdict.blockedStatus
    ∧ ¬(503 = 429 ∨ 503 = 403)
    ∧ classify_probe_status 503 ≠ ProbeVerdict.errorStatus := by decide

/-- Claim C7 as amended: the generic probe's status-set branch fires
exactly on `{429, 403, 503}`, and every other status of at least 400 is
classified by the later error-status rule. -/
theorem probe_status_classification (s : Nat) :
    (classify_probe_status s = ProbeVerdict.blockedStatus ↔ (s = 429 ∨ s = 403 ∨ s = 503))
    ∧ (400 ≤ s → ¬(s = 429 ∨ s = 403 ∨ s = 503) →
        classify_probe_status s = ProbeVerdict.errorStatus) := by
  constructor
  · unfold classify_probe_status
    by_cases h1 : s = 429 ∨ s = 403 ∨ s = 503
    · simp [h1]
    · by_cases h2 : 400 ≤ s <;> simp [h1, h2]
  · intro h4 h1
    unfold classify_probe_status
    simp [h1, h4]

/-- Witness for C7 (amended): 500 goes to the error-status rule and 503 to
the status-set rule. -/
theorem probe_status_classification_witness :
    classify_probe_status 500 = ProbeVerdict.errorStatus
    ∧ classify_probe_status 503 = ProbeVerdict.blockedStatus :=
  ⟨(probe_status_classification 500).2 (by decide) (by decide),
   (probe_status_classification 503).1.mpr (by decide)⟩

/-- Claim C8: a generic probe whose first three responses are 200 and whose
fourth is 429 ends with four attempts, three successes, `blocked = true`
and final status 429. -/
theorem generic_probe_example_run :
    make_requests_until_blocked none
      [Exchange.ok 200, Exchange.ok 200, Exchange.ok 200, Exchange.ok 429]
    = ⟨3, 4, true, some 429, some (ProbeErr.blockedStatusMsg 429)⟩ := by decide

/-- Counterexample for C6: for a truthy form action that is neither
`http`-prefixed nor `/`-prefixed (here `signin.php`), the code resubmits
to the page URL unchanged, while the claimed rule resolves the action as a
relative reference against the page URL — the two disagree. -/
theorem relative_action_not_resolved_counterexample :
    resolve_post_url "https://site.com/accounts/login" (some "signin.php")
      = "https://site.com/accounts/login"
    ∧ resolve_post_url_spec "https://site.com/accounts/login" (some "signin.php")
      = "https://site.com/accounts/signin.php"
    ∧ resolve_post_url "https://site.com/accounts/login" (some "signin.php")
      ≠ resolve_post_url_spec "https://site.com/accounts/login" (some "signin.php") := by
  decide

/-- Claim C6 as amended: absolute (`http`-prefixed) actions are used
verbatim; actions beginning with `/` are handed to `urllib.parse.urljoin`
against the page URL, which resolves an ordinary absolute-path action
(single leading slash, no query/fragment, no dot segments) against the
page's origin but replaces the host for a network-path action (`//host/...`)
and removes `.`/`..` segments; every other action value — truthy relative
references included — leaves the submit URL at the original page URL (an
empty/missing action also resubmits there). -/
theorem post_url_resolution_cases (url a : String) :
    resolve_post_url url none = url
    ∧ resolve_post_url url (some "") = url
    ∧ (a ≠ "" → str_starts_with a "http" = true → resolve_post_url url (some a) = a)
    ∧ (str_starts_with a "/" = true → resolve_post_url url (some a) = urljoin url a)
    ∧ (str_starts_with a "/" = true → str_starts_with a "//" = false →
        (∀ x ∈ a.data, x ≠ '#' ∧ x ≠ '?') →
        (∀ seg ∈ py_split '/' a.data, seg ≠ "." ∧ seg ≠ "..") →
        resolve_post_url url (some a) = origin url ++ a)
    ∧ (a ≠ "" → str_starts_with a "http" = false → str_starts_with a "/" = false →
        resolve_post_url url (some a) = url)
    ∧ urljoin "https://site.com/accounts/login" "//evil.com/form" = "https://evil.com/form"
    ∧ urljoin "https://site.com/accounts/login" "/x/../y" = "https://site.com/y" := by
  have hdeleg : str_starts_with a "/" = true → resolve_post_url url (some a) = urljoin url a := by
    intro h1
    obtain ⟨cs, hd⟩ := starts_with_slash_head a h1
    have hane : a ≠ "" := ne_empty_of_data_cons a '/' cs hd
    simp [resolve_post_url, hane, slash_not_http a h1, h1]
  refine ⟨rfl, rfl, ?_, hdeleg, ?_, ?_, by decide, by decide⟩
  · intro h1 h2
    simp [resolve_post_url, h1, h2]
  · intro h1 h2 h3 h4
    rw [hdeleg h1]
    exact urljoin_slash_clean url a h1 h2 h3 h4
  · intro h1 h2 h3
    simp [resolve_post_url, h1, h2, h3]

/-- Witness for C6 (amended): a root-relative action is joined to the
page's origin, and a bare relative action leaves the page URL in place. -/
theorem post_url_resolution_cases_witness :
    resolve_post_url "https://site.com/accounts/login" (some "/login")
      = origin "https://site.com/accounts/login" ++ "/login"
    ∧ resolve_post_url "https://site.com/accounts/login" (some "signin.php")
      = "https://site.com/accounts/login" :=
  ⟨(post_url_resolution_cases "https://site.com/accounts/login" "/login").2.2.2.2.1
      (by decide) (by decide) (by decide) (by decide),
   (post_url_resolution_cases "https://site.com/accounts/login" "signin.php").2.2.2.2.2.1
      (by decide) (by decide) (by decide)⟩

/-- Claim C2: when the form inspection of the fetched login page leaves the
identity or the secret field at `None`, the credential run aborts before
any login exchange: it returns zero attempts, not blocked, not successful,
no working credentials, and the fields-not-detected message — and the
result is independent of whatever the server would have answered. -/
theorem credential_run_aborts_on_undetected_fields
    (ps : Nat) (doc : HtmlDoc) (emails keywords : List String) (maxA : Option Nat)
    (rnd : Nat → Nat) (resps resps' : List CredExchange)
    (h : (detect_form_fields doc).email_field = none
       ∨ (detect_form_fields doc).password_field = none) :
    attempt_credential_combinations ps doc emails keywords maxA rnd resps
      = ⟨0, false, some ps, some CredErr.fieldsNotDetected, false, []⟩
    ∧ attempt_credential_combinations ps doc emails keywords maxA rnd resps
      = attempt_credential_combinations ps doc emails keywords maxA rnd resps'
    ∧ cred_error_text CredErr.fieldsNotDetected
      = "Could not detect email/password fields in the form" := by
  have hfalse : (pyTruthy (detect_form_fields doc).email_field
      && pyTruthy (detect_form_fields doc).password_field) = false := by
    rcases h with h | h <;> simp [h, pyTruthy]
  refine ⟨?_, ?_, rfl⟩ <;> simp [attempt_credential_combinations, hfalse]

/-- Witness for C2: against a page whose only input is a text field the
secret field stays undetected, and the run returns the zero-attempt abort
record with the literal message. -/
theorem credential_run_aborts_on_undetected_fields_witness :
    attempt_credential_combinations 200 page_without_password_field
      ["a@x.com"] ["pw"] none rnd0 []
      = ⟨0, false, some 200, some CredErr.fieldsNotDetected, false, []⟩
    ∧ cred_error_text CredErr.fieldsNotDetected
      = "Could not detect email/password fields in the form" :=
  ⟨(credential_run_aborts_on_undetected_fields 200 page_without_password_field
      ["a@x.com"] ["pw"] none rnd0 [] [] (Or.inr rfl)).1,
   (credential_run_aborts_on_undetected_fields 200 page_without_password_field
      ["a@x.com"] ["pw"] none rnd0 [] [] (Or.inr rfl)).2.2⟩

/-- Claim C1: a `Succeeded` verdict is not terminal for the credential
loop — the iteration appends the pair to `working_credentials`, sets
`successful`, and continues with the remaining payloads and exchanges; and
consequently a run can return `blocked = true` together with a non-empty
`working_credentials` list (here: a 200 success followed by a 429 block). -/
theorem credential_success_not_terminal :
    (∀ (maxA : Option Nat) (attempts : Nat) (fs : Option Nat) (suc : Bool)
       (wk : List (String × String)) (e p : String) (prs : List (String × String))
       (r : CredResponse) (rest : List CredExchange),
       max_reached maxA attempts = false →
       classify_credential_response r = CredVerdict.succeeded →
       cred_aux maxA attempts fs suc wk ((e, p) :: prs) (CredExchange.ok r :: rest)
         = cred_aux maxA (attempts + 1) (some r.status) true (wk ++ [(e, p)]) prs rest)
    ∧ success_then_block_run.blocked = true
    ∧ success_then_block_run.successful = true
    ∧ success_then_block_run.working_credentials = [("a@x.com", "pw")]
    ∧ success_then_block_run.attempts = 2 := by
  refine ⟨?_, by decide, by decide, by decide, by decide⟩
  intro maxA attempts fs suc wk e p prs r rest h1 h2
  rw [cred_aux.eq_def]
  simp [h1, h2]

/-- Witness for C1: one concrete succeeded iteration steps to the next
payload with the pair recorded and `successful` set. -/
theorem credential_success_not_terminal_witness :
    cred_aux none 0 none false [] [("a@x.com", "pw")] [CredExchange.ok ⟨200, "", ""⟩]
      = cred_aux none 1 (some 200) true [("a@x.com", "pw")] [] [] :=
  credential_success_not_terminal.1 none 0 none false [] "a@x.com" "pw" []
    ⟨200, "", ""⟩ [] rfl (by decide)

/-- Claim C4: for a non-empty seed list and a per-seed cap of at least one,
the generator's output is no longer than `seeds * cap`, holds no duplicate
string, and lists the retained variants in the order of their first
occurrence in the concatenated per-seed variant lists. -/
theorem generator_bounded_nodup_ordered (keywords : List String) (max_per : Nat)
    (rnd : Nat → Nat) (h1 : keywords ≠ []) (h2 : 1 ≤ max_per) :
    (generate_password_combinations keywords max_per rnd).length
      ≤ keywords.length * max_per
    ∧ (generate_password_combinations keywords max_per rnd).Nodup
    ∧ (generate_password_combinations keywords max_per rnd).Pairwise
        (fun a b => first_idx a (all_variations max_per rnd 0 keywords)
                  < first_idx b (all_variations max_per rnd 0 keywords)) := by
  have hp := dedup_aux_pairwise (all_variations max_per rnd 0 keywords) []
  refine ⟨?_, ?_, hp⟩
  · exact le_trans (dedup_aux_length (all_variations max_per rnd 0 keywords) [])
      (all_variations_length max_per rnd keywords 0)
  · exact hp.imp (fun h => fun he => absurd (he ▸ h) (lt_irrefl _))

/-- Witness for C4 at the seed list `["a"]` with cap 1. -/
theorem generator_bounded_nodup_ordered_witness :
    (generate_password_combinations ["a"] 1 rnd0).length
      ≤ (["a"] : List String).length * 1
    ∧ (generate_password_combinations ["a"] 1 rnd0).Nodup
    ∧ (generate_password_combinations ["a"] 1 rnd0).Pairwise
        (fun a b => first_idx a (all_variations 1 rnd0 0 ["a"])
                  < first_idx b (all_variations 1 rnd0 0 ["a"])) :=
  generator_bounded_nodup_ordered ["a"] 1 rnd0 (by decide) (by decide)

/-- Claim C9: for both loops, with a finite cap `m` the attempts counter
of a returned run never exceeds `m`; across iterations the counter never
decreases; the counter equals the number of exchanges actually initiated
(the exchanges consumed from the environment); when every exchange is
classified as a success the capped generic probe ends unblocked; and
reaching the cap, like exhausting the payload sequence, ends the
credential loop unblocked with its counts preserved and no further
exchange consumed. -/
theorem attempt_cap_invariants :
    (∀ (m : Nat) (rs : List Exchange),
       (make_requests_until_blocked (some m) rs).total_attempts ≤ m)
    ∧ (∀ (maxA : Option Nat) (rs : List Exchange) (succ total : Nat) (fs : Option Nat),
       total ≤ (probe_aux maxA succ total fs rs).1.total_attempts)
    ∧ (∀ (maxA : Option Nat) (rs : List Exchange),
       (make_requests_until_blocked maxA rs).total_attempts
         + (probe_aux maxA 0 0 none rs).2.length = rs.length)
    ∧ (∀ (m : Nat) (rs : List Exchange), (∀ e ∈ rs, exchange_ok e = true) →
       (make_requests_until_blocked (some m) rs).blocked = false)
    ∧ (∀ (m ps : Nat) (doc : HtmlDoc) (emails keywords : List String)
         (rnd : Nat → Nat) (resps : List CredExchange),
       (attempt_credential_combinations ps doc emails keywords (some m) rnd resps).attempts ≤ m)
    ∧ (∀ (maxA : Option Nat) (pairs : List (String × String)) (resps : List CredExchange)
         (attempts : Nat) (fs : Option Nat) (suc : Bool) (wk : List (String × String)),
       attempts ≤ (cred_aux maxA attempts fs suc wk pairs resps).1.attempts)
    ∧ (∀ (maxA : Option Nat) (pairs : List (String × String)) (resps : List CredExchange)
         (attempts : Nat) (fs : Option Nat) (suc : Bool) (wk : List (String × String)),
       (cred_aux maxA attempts fs suc wk pairs resps).1.attempts
         + (cred_aux maxA attempts fs suc wk pairs resps).2.length
       = attempts + resps.length)
    ∧ (∀ (maxA : Option Nat) (attempts : Nat) (fs : Option Nat) (suc : Bool)
         (wk : List (String × String)) (resps : List CredExchange),
       cred_aux maxA attempts fs suc wk [] resps
         = (⟨attempts, false, fs, none, suc, wk⟩, resps))
    ∧ (∀ (maxA : Option Nat) (pairs : List (String × String)) (resps : List CredExchange)
         (attempts : Nat) (fs : Option Nat) (suc : Bool) (wk : List (String × String)),
       max_reached maxA attempts = true →
       cred_aux maxA attempts fs suc wk pairs resps
         = (⟨attempts, false, fs, none, suc, wk⟩, resps)) := by
  refine ⟨?_, ?_, ?_, ?_, ?_, ?_, ?_, ?_, ?_⟩
  · intro m rs
    exact probe_aux_total_le m rs 0 0 none (Nat.zero_le m)
  · intro maxA rs succ total fs
    exact probe_aux_total_mono maxA rs succ total fs
  · intro maxA rs
    have h := probe_aux_consumed maxA rs 0 0 none
    simpa [make_requests_until_blocked] using h
  · intro m rs h
    exact probe_aux_no_block (some m) rs 0 0 none h
  · intro m ps doc emails keywords rnd resps
    unfold attempt_credential_combinations
    by_cases hd : (pyTruthy (detect_form_fields doc).email_field
        && pyTruthy (detect_form_fields doc).password_field) = true
    · simp only [hd, if_true]
      exact cred_aux_attempts_le m _ resps 0 none false [] (Nat.zero_le m)
    · simp only [hd]
      simp
  · intro maxA pairs resps attempts fs suc wk
    exact cred_aux_attempts_mono maxA pairs resps attempts fs suc wk
  · intro maxA pairs resps attempts fs suc wk
    exact cred_aux_consumed maxA pairs resps attempts fs suc wk
  · intro maxA attempts fs suc wk resps
    rw [cred_aux.eq_def]
  · intro maxA pairs resps attempts fs suc wk hm
    cases pairs with
    | nil => rw [cred_aux.eq_def]
    | cons ep prs =>
      obtain ⟨e, p⟩ := ep
      rw [cred_aux.eq_def]
      simp [hm]

/-- Witness for C9: the conjuncts with hypotheses, instantiated — a capped
generic probe over three successes stays unblocked and within the cap, and
a credential loop whose cap is already reached returns its state untouched
without consuming an exchange. -/
theorem attempt_cap_invariants_witness :
    (make_requests_until_blocked (some 2)
       [Exchange.ok 200, Exchange.ok 200, Exchange.ok 200]).blocked = false
    ∧ (make_requests_until_blocked (some 2)
       [Exchange.ok 200, Exchange.ok 200, Exchange.ok 200]).total_attempts ≤ 2
    ∧ cred_aux (some 1) 1 (some 200) false [] [("a@x.com", "pw")]
        [CredExchange.ok ⟨200, "", ""⟩]
      = (⟨1, false, some 200, none, false, []⟩, [CredExchange.ok ⟨200, "", ""⟩]) :=
  ⟨attempt_cap_invariants.2.2.2.1 2
      [Exchange.ok 200, Exchange.ok 200, Exchange.ok 200] (by decide),
   attempt_cap_invariants.1 2 [Exchange.ok 200, Exchange.ok 200, Exchange.ok 200],
   attempt_cap_invariants.2.2.2.2.2.2.2.2 (some 1) [("a@x.com", "pw")]
      [CredExchange.ok ⟨200, "", ""⟩] 1 (some 200) false [] (by decide)⟩

/-- Claim C10: form inspection does not force the identity and secret
fields apart — when the first input matching the identity heuristics is
also the first password-type input (and carries a usable `name`/`id`),
both detected fields are that one element's name, and the login body then
holds a single form key (whose value is the password, by dict semantics). -/
theorem identity_and_secret_field_can_coincide
    (form : Option FormTag) (pre rest : List InputField) (f : InputField) (em pw : String)
    (hpre1 : ∀ g ∈ pre, matches_email_field g = false)
    (hpre2 : ∀ g ∈ pre, matches_password_field g = false)
    (hf1 : matches_email_field f = true)
    (hf2 : matches_password_field f = true)
    (ht : pyTruthy (pyOr f.name f.id) = true) :
    (detect_form_fields ⟨form, pre ++ f :: rest⟩).email_field = pyOr f.name f.id
    ∧ (detect_form_fields ⟨form, pre ++ f :: rest⟩).password_field = pyOr f.name f.id
    ∧ ∀ k, pyOr f.name f.id = some k → build_login_data k k em pw = [(k, pw)] := by
  have hpre : pre.foldl scan_step (none, none) = ((none : Option String), (none : Option String)) := by
    induction pre with
    | nil => rfl
    | cons g gs ih =>
      have hg1 := hpre1 g (List.mem_cons_self g gs)
      have hg2 := hpre2 g (List.mem_cons_self g gs)
      rw [List.foldl_cons]
      have hstep : scan_step (none, none) g = (none, none) := by
        simp [scan_step, pyTruthy, hg1, hg2]
      rw [hstep]
      exact ih (fun x hx => hpre1 x (List.mem_cons_of_mem g hx))
        (fun x hx => hpre2 x (List.mem_cons_of_mem g hx))
  have hstepf : scan_step (none, none) f = (pyOr f.name f.id, pyOr f.name f.id) := by
    simp [scan_step, pyTruthy, hf1, hf2]
  have hrest : rest.foldl scan_step (pyOr f.name f.id, pyOr f.name f.id)
      = (pyOr f.name f.id, pyOr f.name f.id) := by
    induction rest with
    | nil => rfl
    | cons g gs ih =>
      rw [List.foldl_cons]
      have hstep : scan_step (pyOr f.name f.id, pyOr f.name f.id)
          = fun _ => (pyOr f.name f.id, pyOr f.name f.id) := by
        funext g'
        simp [scan_step, ht]
      rw [congrFun hstep g]
      exact ih
  have hfold : (pre ++ f :: rest).foldl scan_step (none, none)
      = (pyOr f.name f.id, pyOr f.name f.id) := by
    rw [List.foldl_append, hpre, List.foldl_cons, hstepf, hrest]
  refine ⟨?_, ?_, ?_⟩
  · simp [detect_form_fields, hfold]
  · simp [detect_form_fields, hfold]
  · intro k _
    simp [build_login_data, dict_insert]

/-- Witness for C10: the lone input `type="password" name="user_password"`
is detected as both the identity and the secret field, and the login body
collapses to the single key `user_password` carrying the password. -/
theorem identity_and_secret_field_can_coincide_witness :
    (detect_form_fields ⟨none, [lone_user_password_input]⟩).email_field
      = some "user_password"
    ∧ (detect_form_fields ⟨none, [lone_user_password_input]⟩).password_field
      = some "user_password"
    ∧ build_login_data "user_password" "user_password" "a@x.com" "pw"
      = [("user_password", "pw")] :=
  ⟨(identity_and_secret_field_can_coincide none [] [] lone_user_password_input
      "a@x.com" "pw" (by simp) (by simp) (by decide) (by decide) (by decide)).1,
   (identity_and_secret_field_can_coincide none [] [] lone_user_password_input
      "a@x.com" "pw" (by simp) (by simp) (by decide) (by decide) (by decide)).2.1,
   (identity_and_secret_field_can_coincide none [] [] lone_user_password_input
      "a@x.com" "pw" (by simp) (by simp) (by decide) (by decide) (by decide)).2.2
      "user_password" rfl⟩

end Penweb
